import Mathlib

/-!
# Verification of the inflated-puts-tracker scanning tool

Shallow embedding of the core logic of `src/app.py`:

* `compute_metrics` / `filter_rows` — the metrics & filter engine
  (effective bid, bid-to-strike percentage, DTE, threshold filters, sort);
* `TradierProvider.get_put_quotes` / `PolygonProvider.get_put_quotes` —
  the provider adapters (put filter, strike filter, DTE window, quote
  fallback ladder, failure policy);
* `has_options` / `optionability_mark` — the optionability checker;
* `fetch_calendar_range_multi` — the multi-source earnings calendar merge
  (concatenation, de-duplication on (symbol, date, session), sort);
* `_map_yahoo_time_to_session` — the session-marker normalizer.

Conventions of the embedding:
* Calendar dates are day numbers (`ℤ`); `dtp.parse`/`pd.to_datetime`
  results are `Option ℤ` (`none` = unparseable).
* Python floats are `ℚ` (all arithmetic in the claims is exact:
  sums, halving, division by a nonzero strike, comparisons).
* A pandas cell that `pd.to_numeric(..., errors="coerce")` may turn into
  NaN is an `Option ℚ` (`none` = missing/unparseable, coerced by
  `fillna(0.0)` to `0`).
* A raised Python exception is `Except.error ()`.
-/

namespace PutsTracker

/-! ## Metrics & filter engine (`compute_metrics`, `filter_rows`) -/

/-- One input row of the option-quotes DataFrame, as seen by
`compute_metrics`: the four numeric columns it coerces
(`bid`/`ask`/`last`/`strike`, `none` = missing or non-numeric, mapped to
`0.0` by `fillna`), the parsed expiration (`none` = unparseable, NaT),
and the pass-through columns read by `filter_rows`
(`open_interest`/`volume`, coerced with `fillna(0)` inside the mask, and
`underlying_price`, where `none` models a null cell, `some none` a
present but non-numeric cell — not null, but NaN after `to_numeric` —
and `some (some q)` a numeric cell). -/
structure RawRow where
  bid : Option ℚ
  ask : Option ℚ
  last : Option ℚ
  strike : Option ℚ
  expiration : Option ℤ
  open_interest : Option ℚ
  volume : Option ℚ
  underlying_price : Option (Option ℚ)
deriving DecidableEq

/-- A row of the DataFrame returned by `compute_metrics`: the coerced
numeric columns plus the derived `eff_bid`, `bid_strike_pct` and `dte`
columns, and the untouched pass-through columns. -/
structure DRow where
  bid : ℚ
  ask : ℚ
  last : ℚ
  strike : ℚ
  eff_bid : ℚ
  bid_strike_pct : ℚ
  dte : Option ℤ
  expiration : Option ℤ
  open_interest : Option ℚ
  volume : Option ℚ
  underlying_price : Option (Option ℚ)
deriving DecidableEq

/-- `compute_metrics` on one row (the function is row-wise except for the
shared `today` reference and the `use_mark_fallback` session flag, which
are passed explicitly).  Mirrors `src/app.py` lines 445-480:
numeric coercion with `fillna(0.0)`; the effective-bid `where` chain
(`eff = bid; eff = eff.where(eff > 0, mid)` when the mid fallback is on;
`eff = eff.where(eff > 0, last)`); the guarded percentage
(`denom = strike.replace(0, NA)`, divide, `fillna(0.0)`); and
`dte = (expiration.normalize() - today).days`. -/
def computeRow (useMark : Bool) (today : ℤ) (r : RawRow) : DRow :=
  let bid := r.bid.getD 0
  let ask := r.ask.getD 0
  let last := r.last.getD 0
  let strike := r.strike.getD 0
  let mid := (bid + ask) / 2
  let eff1 := if useMark then (if bid > 0 then bid else mid) else bid
  let eff2 := if eff1 > 0 then eff1 else last
  let denom : Option ℚ := if strike = 0 then none else some strike
  let pct := (denom.map (fun s => eff2 / s * 100)).getD 0
  { bid := bid, ask := ask, last := last, strike := strike,
    eff_bid := eff2, bid_strike_pct := pct,
    dte := r.expiration.map (fun e => e - today),
    expiration := r.expiration,
    open_interest := r.open_interest, volume := r.volume,
    underlying_price := r.underlying_price }

/-- `compute_metrics` over the whole DataFrame. -/
def computeMetrics (useMark : Bool) (today : ℤ) (rows : List RawRow) : List DRow :=
  rows.map (computeRow useMark today)

/-- The raw view of a computed row: the DataFrame that `filter_rows`
returns still carries every column, with `bid`/`ask`/`last`/`strike` now
numeric and `expiration` re-rendered as an ISO date string (which parses
back to the same date).  Feeding the output back into the engine reads
exactly these columns. -/
def DRow.toRaw (d : DRow) : RawRow :=
  { bid := some d.bid, ask := some d.ask, last := some d.last,
    strike := some d.strike, expiration := d.expiration,
    open_interest := d.open_interest, volume := d.volume,
    underlying_price := d.underlying_price }

/-- The sidebar filter configuration read by `filter_rows`:
`target_pct`, `min_dte`, `max_dte`, `min_bid`, `min_oi`, `min_vol` and
the `moneyness` selectbox value (one of `"Any"`, `"OTM only"`,
`"ITM only"`). -/
structure FilterConfig where
  targetPct : ℚ
  minDte : ℤ
  maxDte : ℤ
  minBid : ℚ
  minOI : ℤ
  minVol : ℤ
  moneyness : String
deriving DecidableEq

/-- Which optional columns exist in the DataFrame (`filter_rows` tests
`"open_interest" in df.columns` etc. before adding those mask terms). -/
structure ColFlags where
  hasOI : Bool
  hasVol : Bool
  hasUP : Bool
deriving DecidableEq

/-- The boolean mask of `filter_rows` (src/app.py lines 484-499) for one
computed row.  `anyUP` is the DataFrame-wide
`df["underlying_price"].notna().any()` test that decides whether the
moneyness term is added at all. -/
def rowPass (cfg : FilterConfig) (flags : ColFlags) (anyUP : Bool) (d : DRow) : Bool :=
  (cfg.targetPct ≤ d.bid_strike_pct) &&
  (match d.dte with
   | some n => decide (cfg.minDte ≤ n ∧ n ≤ cfg.maxDte)
   | none => false) &&
  (cfg.minBid ≤ d.eff_bid) &&
  (!flags.hasOI || ((cfg.minOI : ℚ) ≤ d.open_interest.getD 0)) &&
  (!flags.hasVol || ((cfg.minVol : ℚ) ≤ d.volume.getD 0)) &&
  (if cfg.moneyness ≠ "Any" && flags.hasUP && anyUP then
     (if cfg.moneyness = "OTM only" then
        match d.underlying_price with
        | some (some u) => decide (d.strike < u)
        | _ => false
      else if cfg.moneyness = "ITM only" then
        match d.underlying_price with
        | some (some u) => decide (u ≤ d.strike)
        | _ => false
      else true)
   else true)

/-- The sort key of `filter_rows`:
`sort_values(["bid_strike_pct", "eff_bid"], ascending=[False, False])`,
i.e. bid-to-strike percentage descending, ties broken by effective bid
descending. -/
def scanLe (a b : DRow) : Prop :=
  b.bid_strike_pct < a.bid_strike_pct ∨
    (a.bid_strike_pct = b.bid_strike_pct ∧ b.eff_bid ≤ a.eff_bid)

instance : DecidableRel scanLe := fun a b => by
  unfold scanLe; infer_instance

instance scanLe_total : IsTotal DRow scanLe where
  total a b := by
    rcases lt_trichotomy a.bid_strike_pct b.bid_strike_pct with h | h | h
    · exact Or.inr (Or.inl h)
    · rcases le_total b.eff_bid a.eff_bid with h' | h'
      · exact Or.inl (Or.inr ⟨h, h'⟩)
      · exact Or.inr (Or.inr ⟨h.symm, h'⟩)
    · exact Or.inl (Or.inl h)

instance scanLe_trans : IsTrans DRow scanLe where
  trans a b c hab hbc := by
    rcases hab with h1 | ⟨h1, h1'⟩ <;> rcases hbc with h2 | ⟨h2, h2'⟩
    · exact Or.inl (h2.trans h1)
    · exact Or.inl (h2 ▸ h1)
    · exact Or.inl (h1 ▸ h2)
    · exact Or.inr ⟨h1.trans h2, h2'.trans h1'⟩

/-- `filter_rows` (src/app.py lines 482-501): recompute metrics, build
the conjunctive mask, select the passing rows, sort by
(bid-to-strike % desc, effective bid desc). -/
def filterRows (cfg : FilterConfig) (flags : ColFlags) (useMark : Bool)
    (today : ℤ) (rows : List RawRow) : List DRow :=
  let ds := computeMetrics useMark today rows
  let anyUP := ds.any (fun d => d.underlying_price.isSome)
  List.insertionSort scanLe (ds.filter (rowPass cfg flags anyUP))

/-! ## Claim C1 — guarded bid-to-strike percentage -/

/-- The spec's own scenario row: strike 50, bid 6 (fields are
bid, ask, last, strike, expiration, open_interest, volume,
underlying_price). -/
def rowStrike50 : RawRow := ⟨some 6, some 0, some 0, some 50, some 10, none, none, none⟩

/-- A row whose strike is 0. -/
def rowStrike0 : RawRow := ⟨some 6, some 0, some 0, some 0, some 10, none, none, none⟩

/-- C1: for every input row, the derived bid-to-strike percentage equals
(effective bid / strike) * 100 when the row's (coerced) strike is
positive, and equals 0 when the strike is 0 or absent.  The computation
is total (the zero strike is replaced by NA before dividing, never used
as a denominator), so no division fault can occur. -/
theorem bid_strike_pct_guarded (useMark : Bool) (today : ℤ) (r : RawRow) :
    (0 < r.strike.getD 0 →
      (computeRow useMark today r).bid_strike_pct =
        (computeRow useMark today r).eff_bid / r.strike.getD 0 * 100) ∧
    (r.strike.getD 0 = 0 → (computeRow useMark today r).bid_strike_pct = 0) := by
  constructor
  · intro hpos
    have h0 : r.strike.getD 0 ≠ 0 := ne_of_gt hpos
    simp [computeRow, h0]
  · intro h0
    simp [computeRow, h0]

/-- Witness for C1 at the spec's own scenario (strike 50, bid 6):
the percentage equals effective bid / strike × 100, and a strike-0 row
yields percentage 0. -/
theorem bid_strike_pct_guarded_witness :
    ((0:ℚ) < 50 ∧
      (computeRow true 0 rowStrike50).bid_strike_pct =
        (computeRow true 0 rowStrike50).eff_bid / 50 * 100) ∧
    (computeRow true 0 rowStrike0).bid_strike_pct = 0 :=
  ⟨⟨by norm_num,
    (bid_strike_pct_guarded true 0 rowStrike50).1 (by norm_num [rowStrike50])⟩,
   (bid_strike_pct_guarded true 0 rowStrike0).2 (by norm_num [rowStrike0])⟩

/-! ## Claim C2 — the effective-bid fallback ladder -/

/-- The effective bid exactly as the spec sentence words it:
"bid, else mid of bid/ask if enabled, else last-trade price, else 0" with
each fallback taken only "when that is positive".  Written from the
spec's words, for refinement comparison against `computeRow`. -/
def specEffectiveBid (useMark : Bool) (bid ask last : ℚ) : ℚ :=
  if 0 < bid then bid
  else if useMark ∧ 0 < (bid + ask) / 2 then (bid + ask) / 2
  else if 0 < last then last
  else 0

/-- A row with bid 0, ask 0 and a negative last-trade price. -/
def rowNegLast : RawRow := ⟨some 0, some 0, some (-1), some 10, some 30, none, none, none⟩

/-- Counterexample to C2 as stated: on a row with bid 0, ask 0 and a
*negative* last-trade price −1 the code's `where` chain falls through to
`last` without re-checking positivity, giving effective bid −1, whereas
the claimed ladder ends at 0. -/
theorem effective_bid_counterexample :
    (computeRow true 0 rowNegLast).eff_bid ≠ specEffectiveBid true 0 0 (-1) ∧
    (computeRow true 0 rowNegLast).eff_bid = -1 ∧
    specEffectiveBid true 0 0 (-1) = 0 := by
  refine ⟨?_, ?_, ?_⟩ <;> norm_num [computeRow, rowNegLast, specEffectiveBid]

/-- The amended ladder: the final fallback is the coerced last-trade
price itself (0 when missing or non-numeric, but negative when the
feed carries a negative last price) — it is not clamped to 0. -/
def amendedEffectiveBid (useMark : Bool) (bid ask last : ℚ) : ℚ :=
  if 0 < bid then bid
  else if useMark ∧ 0 < (bid + ask) / 2 then (bid + ask) / 2
  else last

/-- C2 (amended): for every input row, the effective bid equals the bid
when positive; otherwise, with the mid fallback enabled, the mid
(bid+ask)/2 when that is positive; otherwise the coerced last-trade
price (0 when missing, negative when negative).  In particular bid = 0,
ask = 4 with the fallback enabled gives 2, not 0. -/
theorem effective_bid_ladder (useMark : Bool) (today : ℤ) (r : RawRow) :
    (computeRow useMark today r).eff_bid =
      amendedEffectiveBid useMark (r.bid.getD 0) (r.ask.getD 0) (r.last.getD 0) := by
  by_cases hb : 0 < r.bid.getD 0 <;>
    by_cases hm : 0 < (r.bid.getD 0 + r.ask.getD 0) / 2 <;>
      cases useMark <;>
        simp [computeRow, amendedEffectiveBid, hb, hm]

/-- The spec's XYZ scenario row: bid 0, ask 4. -/
def rowMidXYZ : RawRow := ⟨some 0, some 4, some 0, some 10, some 30, none, none, none⟩

/-- The spec's XYZ scenario: bid 0, ask 4, mid fallback on →
effective bid 2, not 0. -/
theorem effective_bid_mid_scenario :
    (computeRow true 0 rowMidXYZ).eff_bid = 2 := by
  norm_num [computeRow, rowMidXYZ]

/-! ## Claim C3 — filtered output satisfies the conjunction, sorted -/

/-- C3: every row of the filter engine's output satisfies all configured
predicates simultaneously — target percentage, DTE window, minimum bid,
minimum open interest (when the column exists), minimum volume (when the
column exists) and the moneyness comparison (when a mode is selected,
the column exists and some row has a non-null underlying price) — and
the output is sorted by bid-to-strike percentage descending, then
effective bid descending. -/
theorem filter_conjunction_and_sorted (cfg : FilterConfig) (flags : ColFlags)
    (useMark : Bool) (today : ℤ) (rows : List RawRow) :
    (∀ d ∈ filterRows cfg flags useMark today rows,
      cfg.targetPct ≤ d.bid_strike_pct ∧
      (∃ n, d.dte = some n ∧ cfg.minDte ≤ n ∧ n ≤ cfg.maxDte) ∧
      cfg.minBid ≤ d.eff_bid ∧
      (flags.hasOI = true → (cfg.minOI : ℚ) ≤ d.open_interest.getD 0) ∧
      (flags.hasVol = true → (cfg.minVol : ℚ) ≤ d.volume.getD 0) ∧
      (cfg.moneyness = "OTM only" → flags.hasUP = true →
        (computeMetrics useMark today rows).any (fun x => x.underlying_price.isSome) = true →
        ∃ u, d.underlying_price = some (some u) ∧ d.strike < u) ∧
      (cfg.moneyness = "ITM only" → flags.hasUP = true →
        (computeMetrics useMark today rows).any (fun x => x.underlying_price.isSome) = true →
        ∃ u, d.underlying_price = some (some u) ∧ u ≤ d.strike)) ∧
    (filterRows cfg flags useMark today rows).Sorted scanLe := by
  constructor
  · intro d hd
    simp only [filterRows, List.mem_insertionSort] at hd
    have hp : rowPass cfg flags
        ((computeMetrics useMark today rows).any (fun x => x.underlying_price.isSome)) d = true :=
      List.of_mem_filter hd
    simp only [rowPass, Bool.and_eq_true, Bool.or_eq_true, Bool.not_eq_true',
      decide_eq_true_eq] at hp
    obtain ⟨⟨⟨⟨⟨h1, h2⟩, h3⟩, h4⟩, h5⟩, h6⟩ := hp
    refine ⟨h1, ?_, h3, ?_, ?_, ?_, ?_⟩
    · cases hdte : d.dte with
      | none => rw [hdte] at h2; exact absurd h2 (by simp)
      | some n =>
        rw [hdte] at h2
        exact ⟨n, rfl, by simpa using h2⟩
    · intro hOI
      rcases h4 with h4 | h4
      · rw [hOI] at h4; cases h4
      · exact h4
    · intro hVol
      rcases h5 with h5 | h5
      · rw [hVol] at h5; cases h5
      · exact h5
    · intro hm hUP hAny
      rw [hm, hUP, hAny] at h6
      rw [if_pos (by decide), if_pos rfl] at h6
      cases hup : d.underlying_price with
      | none => rw [hup] at h6; exact absurd h6 (by simp)
      | some o =>
        cases o with
        | none => rw [hup] at h6; exact absurd h6 (by simp)
        | some u =>
          rw [hup] at h6
          exact ⟨u, rfl, by simpa using h6⟩
    · intro hm hUP hAny
      rw [hm, hUP, hAny] at h6
      rw [if_pos (by decide), if_neg (by decide), if_pos rfl] at h6
      cases hup : d.underlying_price with
      | none => rw [hup] at h6; exact absurd h6 (by simp)
      | some o =>
        cases o with
        | none => rw [hup] at h6; exact absurd h6 (by simp)
        | some u =>
          rw [hup] at h6
          exact ⟨u, rfl, by simpa using h6⟩
  · exact List.sorted_insertionSort scanLe _

/-- The configuration of the spec's retention scenario: target 10 %,
DTE window [7, 730], minimum bid 0.10, no liquidity columns. -/
def cfgScenario : FilterConfig := ⟨10, 7, 730, 1/10, 50, 0, "Any"⟩

/-- Flags for a feed without open-interest / volume / underlying-price
columns. -/
def flagsNone : ColFlags := ⟨false, false, false⟩

/-- Witness for C3 at the spec's scenario: the strike-50/bid-6 row
(12 % ≥ 10 %, DTE 10 in [7, 730], bid ≥ 0.10) is retained and satisfies
every configured predicate. -/
theorem filter_conjunction_and_sorted_witness :
    cfgScenario.targetPct ≤ (computeRow true 0 rowStrike50).bid_strike_pct ∧
    (∃ n, (computeRow true 0 rowStrike50).dte = some n ∧
      cfgScenario.minDte ≤ n ∧ n ≤ cfgScenario.maxDte) ∧
    cfgScenario.minBid ≤ (computeRow true 0 rowStrike50).eff_bid ∧
    (flagsNone.hasOI = true →
      (cfgScenario.minOI : ℚ) ≤ (computeRow true 0 rowStrike50).open_interest.getD 0) ∧
    (flagsNone.hasVol = true →
      (cfgScenario.minVol : ℚ) ≤ (computeRow true 0 rowStrike50).volume.getD 0) ∧
    (cfgScenario.moneyness = "OTM only" → flagsNone.hasUP = true →
      (computeMetrics true 0 [rowStrike50]).any (fun x => x.underlying_price.isSome) = true →
      ∃ u, (computeRow true 0 rowStrike50).underlying_price = some (some u) ∧
        (computeRow true 0 rowStrike50).strike < u) ∧
    (cfgScenario.moneyness = "ITM only" → flagsNone.hasUP = true →
      (computeMetrics true 0 [rowStrike50]).any (fun x => x.underlying_price.isSome) = true →
      ∃ u, (computeRow true 0 rowStrike50).underlying_price = some (some u) ∧
        u ≤ (computeRow true 0 rowStrike50).strike) :=
  (filter_conjunction_and_sorted cfgScenario flagsNone true 0 [rowStrike50]).1
    (computeRow true 0 rowStrike50)
    (by norm_num [filterRows, computeMetrics, computeRow, rowPass,
      rowStrike50, cfgScenario, flagsNone])

/-! ## Claim C9 — filtering is idempotent -/

/-- Re-deriving the metrics of an already-derived row changes nothing:
the numeric columns are already coerced and the ladder recomputes the
same values. -/
theorem computeRow_toRaw (useMark : Bool) (today : ℤ) (r : RawRow) :
    computeRow useMark today ((computeRow useMark today r).toRaw) =
      computeRow useMark today r := rfl

/-- A row passing the mask with some `anyUP` flag also passes it with
the moneyness term switched off. -/
theorem rowPass_anyUP_false (cfg : FilterConfig) (flags : ColFlags)
    (A : Bool) (d : DRow) (h : rowPass cfg flags A d = true) :
    rowPass cfg flags false d = true := by
  simp only [rowPass, Bool.and_eq_true] at h ⊢
  exact ⟨h.1, by simp⟩

/-- C9: filtering is idempotent — running `filter_rows` on its own
output (whose columns are exactly the returned DataFrame's columns)
returns that output unchanged, for a fixed configuration, mid-fallback
flag and `today` reference.  (Determinism across calls is inherent: the
engine recomputes every derived column from its input alone.) -/
theorem filter_idempotent (cfg : FilterConfig) (flags : ColFlags)
    (useMark : Bool) (today : ℤ) (rows : List RawRow) :
    filterRows cfg flags useMark today
      ((filterRows cfg flags useMark today rows).map DRow.toRaw) =
    filterRows cfg flags useMark today rows := by
  have hsub : ∀ d ∈ filterRows cfg flags useMark today rows,
      d ∈ computeMetrics useMark today rows ∧
      rowPass cfg flags
        ((computeMetrics useMark today rows).any (fun x => x.underlying_price.isSome))
        d = true := by
    intro d hd
    simp only [filterRows, List.mem_insertionSort] at hd
    exact ⟨List.mem_of_mem_filter hd, List.of_mem_filter hd⟩
  have hmetrics : computeMetrics useMark today
      ((filterRows cfg flags useMark today rows).map DRow.toRaw) =
      filterRows cfg flags useMark today rows := by
    rw [computeMetrics, List.map_map]
    have hcong : ∀ d ∈ filterRows cfg flags useMark today rows,
        (computeRow useMark today ∘ DRow.toRaw) d = id d := by
      intro d hd
      obtain ⟨hds, -⟩ := hsub d hd
      simp only [computeMetrics, List.mem_map] at hds
      obtain ⟨r, -, rfl⟩ := hds
      simpa using computeRow_toRaw useMark today r
    rw [List.map_congr_left hcong, List.map_id]
  have hpass2 : ∀ d ∈ filterRows cfg flags useMark today rows,
      rowPass cfg flags
        ((filterRows cfg flags useMark today rows).any (fun x => x.underlying_price.isSome))
        d = true := by
    intro d hd
    obtain ⟨hds, hp1⟩ := hsub d hd
    by_cases hA : (computeMetrics useMark today rows).any
        (fun x => x.underlying_price.isSome) = true
    · rw [hA] at hp1
      by_cases hA2 : (filterRows cfg flags useMark today rows).any
          (fun x => x.underlying_price.isSome) = true
      · rw [hA2]; exact hp1
      · rw [Bool.not_eq_true] at hA2
        rw [hA2]
        exact rowPass_anyUP_false cfg flags true d hp1
    · rw [Bool.not_eq_true] at hA
      have hA2 : (filterRows cfg flags useMark today rows).any
          (fun x => x.underlying_price.isSome) = false := by
        rw [List.any_eq_false]
        intro x hx
        rw [List.any_eq_false] at hA
        exact hA x (hsub x hx).1
      rw [hA] at hp1
      rw [hA2]
      exact hp1
  show List.insertionSort scanLe
      ((computeMetrics useMark today
        ((filterRows cfg flags useMark today rows).map DRow.toRaw)).filter
        (rowPass cfg flags
          ((computeMetrics useMark today
            ((filterRows cfg flags useMark today rows).map DRow.toRaw)).any
            (fun x => x.underlying_price.isSome)))) =
      filterRows cfg flags useMark today rows
  rw [hmetrics, List.filter_eq_self.mpr hpass2]
  exact (List.sorted_insertionSort scanLe _).insertionSort_eq

/-! ## Claim C10 — active moneyness filter excludes rows without a price -/

/-- C10: when an OTM/ITM moneyness mode is selected, the
`underlying_price` column exists, and at least one input row carries a
present (non-null) underlying price, every row whose own underlying
price is null or non-numeric is excluded from the filtered output — the
NaN comparison in its moneyness term is false regardless of the other
predicates. -/
theorem moneyness_excludes_missing_price (cfg : FilterConfig) (flags : ColFlags)
    (useMark : Bool) (today : ℤ) (rows : List RawRow) (r : RawRow)
    (hmode : cfg.moneyness = "OTM only" ∨ cfg.moneyness = "ITM only")
    (hUP : flags.hasUP = true)
    (hany : ∃ r' ∈ rows, r'.underlying_price.isSome)
    (_hr : r ∈ rows)
    (hup : r.underlying_price = none ∨ r.underlying_price = some none) :
    computeRow useMark today r ∉ filterRows cfg flags useMark today rows := by
  intro hmem
  simp only [filterRows, List.mem_insertionSort] at hmem
  have hp := List.of_mem_filter hmem
  have hA : (computeMetrics useMark today rows).any
      (fun x => x.underlying_price.isSome) = true := by
    rw [List.any_eq_true]
    obtain ⟨r', hr', hs⟩ := hany
    exact ⟨computeRow useMark today r', List.mem_map_of_mem _ hr', hs⟩
  rw [hA] at hp
  simp only [rowPass, Bool.and_eq_true] at hp
  have h6 := hp.2
  have hproj : (computeRow useMark today r).underlying_price = r.underlying_price := rfl
  rcases hmode with hm | hm
  · rw [hm, hUP] at h6
    rw [if_pos (by decide), if_pos rfl] at h6
    rcases hup with h | h <;> rw [hproj, h] at h6 <;> simp at h6
  · rw [hm, hUP] at h6
    rw [if_pos (by decide), if_neg (by decide), if_pos rfl] at h6
    rcases hup with h | h <;> rw [hproj, h] at h6 <;> simp at h6

/-- A row carrying a numeric underlying price of 100. -/
def rowWithUP : RawRow := ⟨some 1, some 0, some 0, some 10, some 10, none, none, some (some 100)⟩

/-- A row with a null underlying price that passes every other filter of
`cfgOTM`. -/
def rowNoUP : RawRow := ⟨some 5, some 0, some 0, some 10, some 10, none, none, none⟩

/-- An OTM-only configuration with all thresholds at their loosest. -/
def cfgOTM : FilterConfig := ⟨0, 0, 100, 0, 0, 0, "OTM only"⟩

/-- Flags for a feed carrying the `underlying_price` column. -/
def flagsUP : ColFlags := ⟨false, false, true⟩

/-- Witness for C10: with OTM-only selected and `rowWithUP` present, the
null-priced `rowNoUP` is excluded even though it passes every other
predicate. -/
theorem moneyness_excludes_missing_price_witness :
    computeRow true 0 rowNoUP ∉
      filterRows cfgOTM flagsUP true 0 [rowWithUP, rowNoUP] :=
  moneyness_excludes_missing_price cfgOTM flagsUP true 0 [rowWithUP, rowNoUP] rowNoUP
    (Or.inl rfl) rfl ⟨rowWithUP, by simp, rfl⟩ (by simp) (Or.inl rfl)

/-! ## Claim C5 — the optionability checker

`has_options` (src/app.py lines 504-516) probes the provider's
expirations endpoint for the symbol.  The probe's outcome is passed in
as `Except Unit (List String)`: `.ok exps` models a response (the list
of expiration dates), `.error ()` a raised exception (network failure,
bad credential, HTTP error).  For the Polygon branch the probe *always*
raises: `PolygonProvider` defines no `_expirations` method, so
`prov._expirations(symbol)` is an `AttributeError` — caught by the
`except` like any other failure. -/

/-- `has_options`: the `try` body returns `bool(exps)` for a configured
Tradier/Polygon provider with a credential; every exception (and every
other provider choice) yields `False`.  The Polygon branch can only
raise (missing `_expirations`), hence is constantly `False`. -/
def hasOptions (providerChoice cred : String)
    (tradierProbe : Except Unit (List String)) : Bool :=
  if providerChoice = "Tradier" ∧ cred ≠ "" then
    match tradierProbe with
    | .ok exps => !exps.isEmpty
    | .error _ => false
  else if providerChoice = "Polygon" ∧ cred ≠ "" then
    false
  else false

/-- `optionability_mark` (src/app.py lines 519-534): with a provider and
credential configured, map `has_options` to `"yes"`/`"no"`; otherwise
`"unknown"`.  (The function's own `try`/`except` can never fire:
`has_options` swallows every exception.)  Returns (status, marked
symbol). -/
def optionabilityMark (providerChoice cred symbol : String)
    (tradierProbe : Except Unit (List String)) : String × String :=
  if (providerChoice = "Tradier" ∨ providerChoice = "Polygon") ∧ cred ≠ "" then
    if hasOptions providerChoice cred tradierProbe then
      ("yes", symbol ++ "*")
    else
      ("no", symbol)
  else
    ("unknown", symbol ++ "?")

/-- C5, the part that holds: the status is always one of exactly
`{"yes", "no", "unknown"}`, it is `"unknown"` whenever no credential is
supplied (whatever the probe would have answered), and it is `"yes"`
exactly when the provider responded with a non-empty expiration list
(for Tradier; the Polygon probe cannot succeed). -/
theorem optionability_status_range (providerChoice cred symbol : String)
    (tradierProbe : Except Unit (List String)) :
    ((optionabilityMark providerChoice cred symbol tradierProbe).1 = "yes" ∨
     (optionabilityMark providerChoice cred symbol tradierProbe).1 = "no" ∨
     (optionabilityMark providerChoice cred symbol tradierProbe).1 = "unknown") ∧
    (cred = "" →
      (optionabilityMark providerChoice cred symbol tradierProbe).1 = "unknown") := by
  constructor
  · unfold optionabilityMark
    split
    · split
      · exact Or.inl rfl
      · exact Or.inr (Or.inl rfl)
    · exact Or.inr (Or.inr rfl)
  · intro hcred
    unfold optionabilityMark
    rw [if_neg]
    rintro ⟨-, hne⟩
    exact hne hcred

/-- Witness for the range/no-credential theorem: with an empty
credential the status is `"unknown"`. -/
theorem optionability_status_range_witness :
    ((optionabilityMark "Tradier" "" "AAPL" (.ok ["2024-05-17"])).1 = "yes" ∨
     (optionabilityMark "Tradier" "" "AAPL" (.ok ["2024-05-17"])).1 = "no" ∨
     (optionabilityMark "Tradier" "" "AAPL" (.ok ["2024-05-17"])).1 = "unknown") ∧
    (optionabilityMark "Tradier" "" "AAPL" (.ok ["2024-05-17"])).1 = "unknown" :=
  ⟨(optionability_status_range "Tradier" "" "AAPL" (.ok ["2024-05-17"])).1,
   (optionability_status_range "Tradier" "" "AAPL" (.ok ["2024-05-17"])).2 rfl⟩

/-- C5, the bug: the claim (and the function's own docstring — `'no'`
means *confirmed* not optionable, `'unknown'` means couldn't verify)
requires a failed probe to yield `"unknown"`; but `has_options` maps
every exception to `False`, which `optionability_mark` then labels
`"no"`.  With a Tradier credential and a probe that raises (network
failure — or any Polygon probe, whose `_expirations` attribute does not
exist), the status is `"no"`, not `"unknown"`. -/
theorem optionability_probe_failure_is_no :
    (optionabilityMark "Tradier" "token" "AAPL" (.error ())).1 = "no" ∧
    (optionabilityMark "Polygon" "key" "AAPL" (.error ())).1 = "no" ∧
    (optionabilityMark "Polygon" "key" "AAPL" (.ok ["2024-05-17"])).1 = "no" := by
  refine ⟨?_, ?_, ?_⟩ <;> rfl

/-! ## Claim C8 — the session-marker normalizer
(`_map_yahoo_time_to_session`, src/app.py lines 835-843) -/

/-- Whitespace for Python's `str.strip()`. -/
def isPySpace (c : Char) : Bool :=
  c = ' ' || c = '\t' || c = '\n' || c = '\r' || c = '\x0b' || c = '\x0c'

/-- Does `hay` start with `needle`? -/
def listStartsWith : List Char → List Char → Bool
  | [], _ => true
  | _ :: _, [] => false
  | a :: as, b :: bs => a == b && listStartsWith as bs

/-- Python's `needle in hay` substring test on character lists. -/
def listContainsSub (needle : List Char) : List Char → Bool
  | [] => listStartsWith needle []
  | b :: bs => listStartsWith needle (b :: bs) || listContainsSub needle bs

/-- `(val or "").strip().lower()` as a character list. -/
def pyStripLower (s : String) : List Char :=
  (((s.toList.dropWhile isPySpace).reverse.dropWhile isPySpace).reverse).map Char.toLower

/-- The before-open keyword test of the normalizer:
`"before" in v or "pre-market" in v or "bmo" in v`. -/
def hasBeforeKeyword (v : List Char) : Bool :=
  listContainsSub "before".toList v || listContainsSub "pre-market".toList v ||
    listContainsSub "bmo".toList v

/-- The after-close keyword test of the normalizer:
`"after" in v or "post-market" in v or "amc" in v`. -/
def hasAfterKeyword (v : List Char) : Bool :=
  listContainsSub "after".toList v || listContainsSub "post-market".toList v ||
    listContainsSub "amc".toList v

/-- `_map_yahoo_time_to_session`: strip/lowercase, empty → unknown
(`""`), before-open keywords → `"BMO"`, else after-close keywords →
`"AMC"`, else unknown. -/
def mapYahooTimeToSession (val : String) : String :=
  let v := pyStripLower val
  if v = [] then ""
  else if hasBeforeKeyword v then "BMO"
  else if hasAfterKeyword v then "AMC"
  else ""

/-- Counterexample to C8 as stated: the string `"bmo"` maps to the
before-open marker although it contains neither `"before"` nor
`"pre-market"` — the code also recognizes the keywords `"bmo"` and
`"amc"`, which the claim omits. -/
theorem session_marker_counterexample :
    ¬ (mapYahooTimeToSession "bmo" = "BMO" ↔
        (listContainsSub "before".toList (pyStripLower "bmo") ||
         listContainsSub "pre-market".toList (pyStripLower "bmo")) = true) := by
  decide

/-- C8 (amended): after stripping and lowercasing, the normalizer
returns before-open exactly when the text contains `"before"`,
`"pre-market"` or `"bmo"`; after-close exactly when it contains
`"after"`, `"post-market"` or `"amc"` and no before-open keyword (the
before-open test wins); and the unknown marker exactly when it contains
no keyword of either group. -/
theorem session_marker_amended (val : String) :
    (mapYahooTimeToSession val = "BMO" ↔
      hasBeforeKeyword (pyStripLower val) = true) ∧
    (mapYahooTimeToSession val = "AMC" ↔
      (hasAfterKeyword (pyStripLower val) = true ∧
       hasBeforeKeyword (pyStripLower val) = false)) ∧
    (mapYahooTimeToSession val = "" ↔
      (hasBeforeKeyword (pyStripLower val) = false ∧
       hasAfterKeyword (pyStripLower val) = false)) := by
  simp only [mapYahooTimeToSession]
  by_cases he : pyStripLower val = []
  · rw [he]
    refine ⟨?_, ?_, ?_⟩ <;> simp <;> decide
  · rw [if_neg he]
    by_cases hb : hasBeforeKeyword (pyStripLower val) = true
    · rw [if_pos hb, hb]
      refine ⟨?_, ?_, ?_⟩ <;> simp
    · rw [Bool.not_eq_true] at hb
      rw [hb, if_neg (by simp)]
      by_cases ha : hasAfterKeyword (pyStripLower val) = true
      · rw [if_pos ha, ha]
        refine ⟨?_, ?_, ?_⟩ <;> simp
      · rw [Bool.not_eq_true] at ha
        rw [ha, if_neg (by simp)]
        refine ⟨?_, ?_, ?_⟩ <;> simp

/-! ## Provider adapters (`TradierProvider` / `PolygonProvider`)

JSON field values feeding `float(...)`/`int(...)` conversions are
modelled by `JVal`; a raised conversion error is `Except.error ()`.
The Python for-loops are rendered as recursions carrying the `out`
accumulator, with an uncaught exception propagating as `.error`. -/

/-- A JSON scalar as read by `c.get(...)`: a number, a string, or
null/missing. -/
inductive JVal where
  | num (q : ℚ)
  | str (s : String)
  | null
deriving DecidableEq

/-- Python truthiness of a JSON scalar (`x or 0` keeps `x` iff truthy). -/
def JVal.truthy : JVal → Bool
  | .num q => q != 0
  | .str s => s != ""
  | .null => false

/-- `x or 0`: the value itself when truthy, else the number 0. -/
def pyOr0 (v : JVal) : JVal := if v.truthy then v else .num 0

/-- Value of an all-digit string (the fragment of Python's numeric
string parsing exercised here; any other string — `"N/A"`, `""`,
words — fails to parse, as in Python). -/
def digitStringVal (s : String) : Option ℕ :=
  if s.toList ≠ [] ∧ s.toList.all Char.isDigit then
    some (s.toList.foldl (fun a c => a * 10 + (c.toNat - 48)) 0)
  else none

/-- Python `float(v)`: numbers pass through, parseable strings parse,
anything else raises. -/
def pyFloat : JVal → Except Unit ℚ
  | .num q => .ok q
  | .str s =>
    match digitStringVal s with
    | some n => .ok (n : ℚ)
    | none => .error ()
  | .null => .error ()

/-- Python `int(v)`: floats truncate toward zero, integer-literal
strings parse, anything else raises. -/
def pyInt : JVal → Except Unit ℤ
  | .num q => .ok (if 0 ≤ q then ⌊q⌋ else ⌈q⌉)
  | .str s =>
    match digitStringVal s with
    | some n => .ok (n : ℤ)
    | none => .error ()
  | .null => .error ()

/-- The normalized quote record (`OptionQuote` TypedDict in
src/app.py). -/
structure OptionQuote where
  provider : String
  option_symbol : String
  underlying : String
  type : String
  strike : ℚ
  expiration : ℤ
  bid : ℚ
  ask : ℚ
  last : Option ℚ
  volume : Option ℤ
  open_interest : Option ℤ
  underlying_price : Option ℚ
  exch : Option String
  updated : Option String
deriving DecidableEq

/-- One raw contract object of a Tradier chain response, with the
fields `TradierProvider.get_put_quotes` reads. -/
structure TContract where
  option_type : String
  symbol : String
  root_symbol : String
  bid : JVal
  ask : JVal
  strike : JVal
  last : JVal
  volume : JVal
  open_interest : JVal
  underlying_price : JVal
deriving DecidableEq

/-- The per-contract body of the Tradier loop (src/app.py lines
125-148): skip non-puts, convert bid/ask/strike (raising on malformed
values — these conversions sit outside every `try`), skip strike ≤ 0,
convert the remaining fields, build the record. -/
def tradierContractQuote (symbol : String) (d : ℤ) (c : TContract) :
    Except Unit (Option OptionQuote) :=
  if c.option_type.toList.map Char.toLower ≠ "put".toList then .ok none
  else
    match pyFloat (pyOr0 c.bid) with
    | .error e => .error e
    | .ok bid =>
      match pyFloat (pyOr0 c.ask) with
      | .error e => .error e
      | .ok ask =>
        match pyFloat (pyOr0 c.strike) with
        | .error e => .error e
        | .ok strike =>
          if strike ≤ 0 then .ok none
          else
            match pyFloat (pyOr0 c.last) with
            | .error e => .error e
            | .ok last =>
              match pyInt (pyOr0 c.volume) with
              | .error e => .error e
              | .ok vol =>
                match pyInt (pyOr0 c.open_interest) with
                | .error e => .error e
                | .ok oi =>
                  match pyFloat (pyOr0 c.underlying_price) with
                  | .error e => .error e
                  | .ok up =>
                    .ok (some ⟨"Tradier", c.symbol, symbol, "put", strike, d,
                      bid, ask, some last, some vol, some oi, some up,
                      some c.root_symbol, none⟩)

/-- The inner `for c in chain` loop: a conversion error aborts the whole
call (nothing catches it), a clean contract either appends or is
skipped. -/
def tradierChainLoop (symbol : String) (d : ℤ) :
    List TContract → List OptionQuote → Except Unit (List OptionQuote)
  | [], acc => .ok acc
  | c :: cs, acc =>
    match tradierContractQuote symbol d c with
    | .error e => .error e
    | .ok none => tradierChainLoop symbol d cs acc
    | .ok (some q) => tradierChainLoop symbol d cs (acc ++ [q])

/-- The outer `for exp in expirations` loop: unparseable expirations
`continue`, expirations outside the DTE window `continue`, a chain
fetch failure `continue` (its `try` catches), the chain body may raise.
Each expiration entry carries its parsed date (`none` = `dtp.parse`
failed) and its chain fetch outcome. -/
def tradierLoop (symbol : String) (minDte maxDte today : ℤ) :
    List (Option ℤ × Except Unit (List TContract)) → List OptionQuote →
    Except Unit (List OptionQuote)
  | [], acc => .ok acc
  | e :: rest, acc =>
    match e.1 with
    | none => tradierLoop symbol minDte maxDte today rest acc
    | some d =>
      if d - today < minDte ∨ maxDte < d - today then
        tradierLoop symbol minDte maxDte today rest acc
      else
        match e.2 with
        | .error _ => tradierLoop symbol minDte maxDte today rest acc
        | .ok chain =>
          match tradierChainLoop symbol d chain acc with
          | .error e' => .error e'
          | .ok acc' => tradierLoop symbol minDte maxDte today rest acc'

/-- `TradierProvider.get_put_quotes` (src/app.py lines 106-149): a
failed expirations fetch returns `[]`; otherwise run the loop over the
expiration entries.  The result is `.error` exactly when an uncaught
exception propagates to the caller. -/
def tradierGetPutQuotes (symbol : String) (minDte maxDte today : ℤ)
    (expFetch : Except Unit (List (Option ℤ × Except Unit (List TContract)))) :
    Except Unit (List OptionQuote) :=
  match expFetch with
  | .error _ => .ok []
  | .ok exps => tradierLoop symbol minDte maxDte today exps []

/-- One raw Polygon reference contract, with the fields
`PolygonProvider.get_put_quotes` reads (`""` models a missing/falsy
ticker field; the expiration is pre-parsed, `none` = unparseable). -/
structure PContract where
  ticker : String
  options_ticker : String
  expiration : Option ℤ
  strike_price : JVal
deriving DecidableEq

/-- The per-option-symbol upstream endpoints used by the Polygon
adapter.  `nbbo` may raise (`.error`, a network failure inside `_nbbo`'s
`sess.get`); `snapshot` (returning its cached `(bid, ask, last)` tuple),
`tradeLatest` and `prevClose` swallow their own errors and return zeros;
`_is_after_hours_et` returns a Bool (True on failure). -/
structure PolygonEnv where
  nbbo : String → Except Unit (JVal × JVal × Option String)
  snapshot : String → ℚ × ℚ × ℚ
  tradeLatest : String → ℚ
  prevClose : String → ℚ
  afterHours : Bool

/-- One step of the Polygon contract iterator: either it yields a
contract row, or the paginated fetch raises mid-iteration. -/
inductive PEvent where
  | contract (c : PContract)
  | exc
deriving DecidableEq

/-- The fallback ladder and record construction of the Polygon loop
body (src/app.py lines 302-333), given the NBBO bid/ask already
converted: when both are non-positive, try the snapshot tuple, else the
latest trade, else the previous close; after hours with only a last
price, synthesize `bid = ask = last`; `last` is recorded only when
positive. -/
def polygonFallbackQuote (env : PolygonEnv) (symbol opt : String)
    (strike : ℚ) (expd : ℤ) (ts : Option String) (bid ask : ℚ) : OptionQuote :=
  let res :=
    if bid ≤ 0 ∧ ask ≤ 0 then
      let s := env.snapshot opt
      if 0 < s.1 ∨ 0 < s.2.1 then
        if s.1 ≤ 0 ∧ s.2.1 ≤ 0 ∧ 0 < s.2.2 ∧ env.afterHours then
          (s.2.2, s.2.2, s.2.2)
        else (s.1, s.2.1, s.2.2)
      else
        let lp0 := env.tradeLatest opt
        let lp := if lp0 ≤ 0 then env.prevClose opt else lp0
        if bid ≤ 0 ∧ ask ≤ 0 ∧ 0 < lp ∧ env.afterHours then
          (lp, lp, lp)
        else (bid, ask, lp)
    else (bid, ask, 0)
  ⟨"Polygon", opt, symbol, "put", strike, expd, res.1, res.2.1,
    if 0 < res.2.2 then some res.2.2 else none,
    none, none, none, none, ts⟩

/-- The per-contract body of the Polygon loop (src/app.py lines
277-333): missing ticker / unparseable expiration / out-of-window DTE /
strike ≤ 0 are skipped; the NBBO fetch may raise (`.error` — caught
only by the outer handler, which keeps the accumulated rows); then the
fallback ladder snapshot → latest trade → previous close, with the
after-hours synthetic mark `bid = ask = last`. -/
def polygonContractQuote (env : PolygonEnv) (symbol : String)
    (minDte maxDte today : ℤ) (c : PContract) : Except Unit (Option OptionQuote) :=
  let opt := if c.ticker ≠ "" then c.ticker else c.options_ticker
  if opt = "" then .ok none
  else
    match c.expiration with
    | none => .ok none
    | some expd =>
      if expd - today < minDte ∨ maxDte < expd - today then .ok none
      else
        match pyFloat (pyOr0 c.strike_price) with
        | .error e => .error e
        | .ok strike =>
          if strike ≤ 0 then .ok none
          else
            match env.nbbo opt with
            | .error e => .error e
            | .ok (bidJ, askJ, ts) =>
              match pyFloat (pyOr0 bidJ) with
              | .error e => .error e
              | .ok bid =>
                match pyFloat (pyOr0 askJ) with
                | .error e => .error e
                | .ok ask =>
                  .ok (some (polygonFallbackQuote env symbol opt strike expd ts bid ask))

/-- The `for c in self._iter_contracts(symbol)` loop inside the adapter's
single `try`: a generator exception or a raising body ends the loop and
the `except` returns the rows accumulated so far. -/
def polygonGo (env : PolygonEnv) (symbol : String) (minDte maxDte today : ℤ) :
    List PEvent → List OptionQuote → List OptionQuote
  | [], acc => acc
  | .exc :: _, acc => acc
  | .contract c :: rest, acc =>
    match polygonContractQuote env symbol minDte maxDte today c with
    | .error _ => acc
    | .ok none => polygonGo env symbol minDte maxDte today rest acc
    | .ok (some q) => polygonGo env symbol minDte maxDte today rest (acc ++ [q])

/-- `PolygonProvider.get_put_quotes` (src/app.py lines 267-338): the
whole body is wrapped in `try ... except: pass`, so the function always
returns a list — partial on failure, never an exception. -/
def polygonGetPutQuotes (env : PolygonEnv) (symbol : String)
    (minDte maxDte today : ℤ) (stream : List PEvent) : List OptionQuote :=
  polygonGo env symbol minDte maxDte today stream []

/-! ## Claim C4 — adapters emit only in-window puts with positive strike -/

/-- The record invariant of C4: a put record with positive strike whose
days-to-expiration lie in the requested window. -/
def QuoteOk (minDte maxDte today : ℤ) (q : OptionQuote) : Prop :=
  q.type = "put" ∧ 0 < q.strike ∧
    minDte ≤ q.expiration - today ∧ q.expiration - today ≤ maxDte

/-- A successfully built Tradier contract record is a put with positive
strike, stamped with the expiration date `d` of its chain. -/
theorem tradierContractQuote_fields {symbol : String} {d : ℤ}
    {c : TContract} {q : OptionQuote}
    (h : tradierContractQuote symbol d c = .ok (some q)) :
    q.type = "put" ∧ 0 < q.strike ∧ q.expiration = d := by
  unfold tradierContractQuote at h
  repeat' split at h
  all_goals first
    | exact Except.noConfusion h
    | exact Option.noConfusion (Except.ok.inj h)
    | (obtain rfl := Option.some.inj (Except.ok.inj h)
       exact ⟨rfl, by simp_all [not_le], rfl⟩)

/-- Rows produced by the inner chain loop are the accumulator's rows
plus puts with positive strike at date `d`. -/
theorem tradierChainLoop_mem {symbol : String} {d : ℤ} :
    ∀ {chain : List TContract} {acc qs : List OptionQuote},
    tradierChainLoop symbol d chain acc = .ok qs →
    ∀ q ∈ qs, q ∈ acc ∨ (q.type = "put" ∧ 0 < q.strike ∧ q.expiration = d) := by
  intro chain
  induction chain with
  | nil =>
    intro acc qs h q hq
    rw [tradierChainLoop] at h
    cases h
    exact Or.inl hq
  | cons c cs ih =>
    intro acc qs h q hq
    rw [tradierChainLoop] at h
    cases hc : tradierContractQuote symbol d c with
    | error e => rw [hc] at h; cases h
    | ok o =>
      rw [hc] at h
      cases o with
      | none => exact ih h q hq
      | some q' =>
        rcases ih h q hq with hin | hgood
        · rcases List.mem_append.mp hin with h1 | h2
          · exact Or.inl h1
          · have hq' : q = q' := by simpa using h2
            subst hq'
            exact Or.inr (tradierContractQuote_fields hc)
        · exact Or.inr hgood

/-- Rows produced by the outer expiration loop are the accumulator's
rows plus records satisfying the C4 invariant. -/
theorem tradierLoop_mem {symbol : String} {minDte maxDte today : ℤ} :
    ∀ {exps : List (Option ℤ × Except Unit (List TContract))}
      {acc qs : List OptionQuote},
    tradierLoop symbol minDte maxDte today exps acc = .ok qs →
    ∀ q ∈ qs, q ∈ acc ∨ QuoteOk minDte maxDte today q := by
  intro exps
  induction exps with
  | nil =>
    intro acc qs h q hq
    rw [tradierLoop] at h
    cases h
    exact Or.inl hq
  | cons e rest ih =>
    obtain ⟨e1, e2⟩ := e
    intro acc qs h q hq
    rw [tradierLoop] at h
    dsimp only at h
    cases e1 with
    | none => exact ih h q hq
    | some d =>
      dsimp only at h
      by_cases hd : d - today < minDte ∨ maxDte < d - today
      · rw [if_pos hd] at h
        exact ih h q hq
      · rw [if_neg hd] at h
        cases e2 with
        | error e' => exact ih h q hq
        | ok chain =>
          dsimp only at h
          cases hcl : tradierChainLoop symbol d chain acc with
          | error e' => rw [hcl] at h; exact Except.noConfusion h
          | ok acc' =>
            rw [hcl] at h
            rcases ih h q hq with hin | hok
            · rcases tradierChainLoop_mem hcl q hin with h1 | h2
              · exact Or.inl h1
              · push_neg at hd
                refine Or.inr ⟨h2.1, h2.2.1, ?_, ?_⟩ <;> rw [h2.2.2] <;> omega
            · exact Or.inr hok

/-- A successfully built Polygon contract record satisfies the C4
invariant. -/
theorem polygonContractQuote_fields {env : PolygonEnv} {symbol : String}
    {minDte maxDte today : ℤ} {c : PContract} {q : OptionQuote}
    (h : polygonContractQuote env symbol minDte maxDte today c = .ok (some q)) :
    QuoteOk minDte maxDte today q := by
  unfold polygonContractQuote at h
  dsimp only at h
  repeat' split at h
  all_goals first
    | exact Except.noConfusion h
    | exact Option.noConfusion (Except.ok.inj h)
    | (obtain rfl := Option.some.inj (Except.ok.inj h)
       exact ⟨rfl, by simp_all [not_le, polygonFallbackQuote],
         by simp only [polygonFallbackQuote]; omega,
         by simp only [polygonFallbackQuote]; omega⟩)

/-- Rows produced by the Polygon loop are the accumulator's rows plus
records satisfying the C4 invariant. -/
theorem polygonGo_mem {env : PolygonEnv} {symbol : String}
    {minDte maxDte today : ℤ} :
    ∀ {stream : List PEvent} {acc : List OptionQuote},
    ∀ q ∈ polygonGo env symbol minDte maxDte today stream acc,
      q ∈ acc ∨ QuoteOk minDte maxDte today q := by
  intro stream
  induction stream with
  | nil => intro acc q hq; exact Or.inl hq
  | cons ev rest ih =>
    intro acc q hq
    cases ev with
    | exc => exact Or.inl hq
    | contract c =>
      rw [polygonGo] at hq
      cases hc : polygonContractQuote env symbol minDte maxDte today c with
      | error e => rw [hc] at hq; exact Or.inl hq
      | ok o =>
        rw [hc] at hq
        cases o with
        | none => exact ih q hq
        | some q' =>
          rcases ih q hq with hin | hok
          · rcases List.mem_append.mp hin with h1 | h2
            · exact Or.inl h1
            · have hq' : q = q' := by simpa using h2
              subst hq'
              exact Or.inr (polygonContractQuote_fields hc)
          · exact Or.inr hok

/-- C4: whatever the upstream responses, every record a provider
adapter returns (whenever it returns at all, for Tradier) is a put with
strictly positive strike whose days-to-expiration lie in
[min_dte, max_dte]; in particular a strike-0 contract never appears. -/
theorem adapter_put_strike_dte (symbol : String) (minDte maxDte today : ℤ)
    (expFetch : Except Unit (List (Option ℤ × Except Unit (List TContract))))
    (env : PolygonEnv) (stream : List PEvent) :
    (∀ qs, tradierGetPutQuotes symbol minDte maxDte today expFetch = .ok qs →
      ∀ q ∈ qs, QuoteOk minDte maxDte today q) ∧
    (∀ q ∈ polygonGetPutQuotes env symbol minDte maxDte today stream,
      QuoteOk minDte maxDte today q) := by
  constructor
  · intro qs h q hq
    unfold tradierGetPutQuotes at h
    cases hef : expFetch with
    | error e =>
      rw [hef] at h
      cases h
      simp at hq
    | ok exps =>
      rw [hef] at h
      rcases tradierLoop_mem h q hq with hin | hok
      · simp at hin
      · exact hok
  · intro q hq
    rcases polygonGo_mem q hq with hin | hok
    · simp at hin
    · exact hok

/-- A well-formed Tradier chain contract: every numeric field is an
actual number (all fields pass through `float(... or 0)`). -/
def tGoodContract : TContract :=
  ⟨"put", "XYZ240119P00050000", "XYZ", .num 1, .num 2, .num 50,
   .num 3, .num 10, .num 5, .num 100⟩

/-- An expirations response with one parseable expiration (day 10) whose
chain fetch succeeds with the single well-formed contract. -/
def tGoodFetch : Except Unit (List (Option ℤ × Except Unit (List TContract))) :=
  .ok [(some 10, .ok [tGoodContract])]

/-- The record the Tradier adapter builds from `tGoodContract`. -/
def tGoodQuote : OptionQuote :=
  ⟨"Tradier", "XYZ240119P00050000", "XYZ", "put", 50, 10, 1, 2,
   some 3, some 10, some 5, some 100, some "XYZ", none⟩

/-- A Polygon environment whose NBBO endpoint answers bid 1 / ask 2. -/
def pGoodEnv : PolygonEnv :=
  ⟨fun _ => .ok (.num 1, .num 2, none), fun _ => (0, 0, 0),
   fun _ => 0, fun _ => 0, false⟩

/-- A Polygon reference contract at strike 50, expiring day 10. -/
def pGoodContract : PContract := ⟨"O:XYZ240119P00050000", "", some 10, .num 50⟩

/-- The record the Polygon adapter builds from `pGoodContract` under
`pGoodEnv`. -/
def pGoodQuote : OptionQuote :=
  ⟨"Polygon", "O:XYZ240119P00050000", "XYZ", "put", 50, 10, 1, 2,
   none, none, none, none, none, none⟩

/-- Witness for C4: on the concrete inputs above, both adapters emit
records satisfying the invariant (put, strike 50 > 0, DTE 10 within
[0, 100]). -/
theorem adapter_put_strike_dte_witness :
    QuoteOk 0 100 0 tGoodQuote ∧ QuoteOk 0 100 0 pGoodQuote :=
  ⟨(adapter_put_strike_dte "XYZ" 0 100 0 tGoodFetch pGoodEnv
      [PEvent.contract pGoodContract]).1 [tGoodQuote] rfl tGoodQuote (by simp),
   (adapter_put_strike_dte "XYZ" 0 100 0 tGoodFetch pGoodEnv
      [PEvent.contract pGoodContract]).2 pGoodQuote (by decide)⟩

/-! ## Claim C6 — failure policy of the adapters -/

/-- A Tradier chain contract whose `bid` field is the string `"N/A"`:
`float("N/A")` raises, and nothing inside `get_put_quotes` catches it. -/
def tBadContract : TContract :=
  ⟨"put", "XYZ240119P00050000", "XYZ", .str "N/A", .num 1, .num 50,
   .num 0, .num 0, .num 0, .num 0⟩

/-- An expirations response whose (in-window) chain contains the
malformed contract. -/
def tBadFetch : Except Unit (List (Option ℤ × Except Unit (List TContract))) :=
  .ok [(some 10, .ok [tBadContract])]

/-- Counterexample to C6 as stated: a malformed numeric field in a
Tradier chain contract makes `get_put_quotes` raise to its caller
instead of returning the accumulated records — the per-contract
`float(...)` conversions sit outside every `try` block. -/
theorem tradier_malformed_field_raises :
    tradierGetPutQuotes "XYZ" 0 100 0 tBadFetch = .error () ∧
    ¬ ∃ qs, tradierGetPutQuotes "XYZ" 0 100 0 tBadFetch = .ok qs := by
  refine ⟨rfl, ?_⟩
  rintro ⟨qs, h⟩
  rw [show tradierGetPutQuotes "XYZ" 0 100 0 tBadFetch = Except.error () from rfl] at h
  exact Except.noConfusion h

/-- A Tradier contract all of whose quote fields survive their
`float(...)`/`int(...)` conversion (numbers and nulls do; so do plain
digit strings). -/
def TContract.parsesClean (c : TContract) : Bool :=
  (pyFloat (pyOr0 c.bid)).isOk && (pyFloat (pyOr0 c.ask)).isOk &&
  (pyFloat (pyOr0 c.strike)).isOk && (pyFloat (pyOr0 c.last)).isOk &&
  (pyInt (pyOr0 c.volume)).isOk && (pyInt (pyOr0 c.open_interest)).isOk &&
  (pyFloat (pyOr0 c.underlying_price)).isOk

/-- An `Except` with `isOk` holds a value. -/
theorem exists_ok_of_isOk {ε α : Type} {e : Except ε α} (h : e.isOk = true) :
    ∃ v, e = .ok v := by
  cases e with
  | error err => exact absurd h (by simp [Except.isOk, Except.toBool])
  | ok v => exact ⟨v, rfl⟩

/-- A clean contract never makes the per-contract body raise. -/
theorem tradierContractQuote_isOk {symbol : String} {d : ℤ} {c : TContract}
    (h : c.parsesClean = true) :
    ∃ r, tradierContractQuote symbol d c = .ok r := by
  simp only [TContract.parsesClean, Bool.and_eq_true] at h
  obtain ⟨⟨⟨⟨⟨⟨h1, h2⟩, h3⟩, h4⟩, h5⟩, h6⟩, h7⟩ := h
  obtain ⟨b, hb⟩ := exists_ok_of_isOk h1
  obtain ⟨a, ha⟩ := exists_ok_of_isOk h2
  obtain ⟨st, hst⟩ := exists_ok_of_isOk h3
  obtain ⟨l, hl⟩ := exists_ok_of_isOk h4
  obtain ⟨vo, hvo⟩ := exists_ok_of_isOk h5
  obtain ⟨oi, hoi⟩ := exists_ok_of_isOk h6
  obtain ⟨up, hup⟩ := exists_ok_of_isOk h7
  unfold tradierContractQuote
  split
  · exact ⟨none, rfl⟩
  · simp only [hb, ha, hst, hl, hvo, hoi, hup]
    split
    · exact ⟨none, rfl⟩
    · exact ⟨_, rfl⟩

/-- A chain of clean contracts never makes the chain loop raise. -/
theorem tradierChainLoop_isOk {symbol : String} {d : ℤ} :
    ∀ {chain : List TContract} {acc : List OptionQuote},
    (∀ c ∈ chain, c.parsesClean = true) →
    ∃ qs, tradierChainLoop symbol d chain acc = .ok qs := by
  intro chain
  induction chain with
  | nil => intro acc _; exact ⟨acc, rfl⟩
  | cons c cs ih =>
    intro acc h
    obtain ⟨r, hr⟩ := tradierContractQuote_isOk (h c (by simp))
    rw [tradierChainLoop, hr]
    cases r with
    | none => exact ih (fun c' hc' => h c' (List.mem_cons_of_mem _ hc'))
    | some q => exact ih (fun c' hc' => h c' (List.mem_cons_of_mem _ hc'))

/-- Clean chains all the way down: the Tradier loop never raises. -/
theorem tradierLoop_isOk {symbol : String} {minDte maxDte today : ℤ} :
    ∀ {exps : List (Option ℤ × Except Unit (List TContract))}
      {acc : List OptionQuote},
    (∀ e ∈ exps, ∀ chain, e.2 = .ok chain → ∀ c ∈ chain, c.parsesClean = true) →
    ∃ qs, tradierLoop symbol minDte maxDte today exps acc = .ok qs := by
  intro exps
  induction exps with
  | nil => intro acc _; exact ⟨acc, rfl⟩
  | cons e rest ih =>
    obtain ⟨e1, e2⟩ := e
    intro acc h
    have hrest : ∀ e' ∈ rest, ∀ chain, e'.2 = .ok chain →
        ∀ c ∈ chain, c.parsesClean = true :=
      fun e' he' => h e' (List.mem_cons_of_mem _ he')
    rw [tradierLoop]
    dsimp only
    cases e1 with
    | none => exact ih hrest
    | some d =>
      dsimp only
      by_cases hd : d - today < minDte ∨ maxDte < d - today
      · rw [if_pos hd]; exact ih hrest
      · rw [if_neg hd]
        cases e2 with
        | error err => exact ih hrest
        | ok chain =>
          dsimp only
          obtain ⟨acc', hacc'⟩ :=
            @tradierChainLoop_isOk symbol d chain acc
              (h (some d, .ok chain) (List.mem_cons_self _ _) chain rfl)
          rw [hacc']
          exact ih hrest

/-- Everything after the first iterator failure is invisible: the
Polygon loop returns what it accumulated before the `exc` event,
whatever would have followed. -/
theorem polygonGo_abort (env : PolygonEnv) (symbol : String)
    (minDte maxDte today : ℤ) :
    ∀ (s₁ s₂ : List PEvent) (acc : List OptionQuote),
    polygonGo env symbol minDte maxDte today (s₁ ++ PEvent.exc :: s₂) acc =
      polygonGo env symbol minDte maxDte today s₁ acc := by
  intro s₁
  induction s₁ with
  | nil => intro s₂ acc; rfl
  | cons ev rest ih =>
    intro s₂ acc
    cases ev with
    | exc => rfl
    | contract c =>
      rw [List.cons_append, polygonGo, polygonGo]
      cases hq : polygonContractQuote env symbol minDte maxDte today c with
      | error e => rfl
      | ok o =>
        cases o with
        | none => exact ih s₂ acc
        | some q => exact ih s₂ (acc ++ [q])

/-- C6 (amended): the Polygon adapter never propagates a failure — its
output on a stream that fails mid-iteration is exactly its output on
the prefix before the failure (accumulated partial results,
unconditionally).  The Tradier adapter swallows expirations-fetch failures,
unparseable expirations and chain-fetch failures, and returns normally
whenever every fetched contract's numeric fields convert cleanly — but
(per the counterexample) a malformed numeric field does raise. -/
theorem adapter_fail_soft (symbol : String) (minDte maxDte today : ℤ)
    (expFetch : Except Unit (List (Option ℤ × Except Unit (List TContract))))
    (env : PolygonEnv) (s₁ s₂ : List PEvent) :
    ((∀ exps, expFetch = .ok exps →
        ∀ e ∈ exps, ∀ chain, e.2 = .ok chain → ∀ c ∈ chain, c.parsesClean = true) →
      ∃ qs, tradierGetPutQuotes symbol minDte maxDte today expFetch = .ok qs) ∧
    polygonGetPutQuotes env symbol minDte maxDte today (s₁ ++ PEvent.exc :: s₂) =
      polygonGetPutQuotes env symbol minDte maxDte today s₁ := by
  constructor
  · intro h
    unfold tradierGetPutQuotes
    cases hef : expFetch with
    | error e => exact ⟨[], rfl⟩
    | ok exps => exact tradierLoop_isOk (h exps hef)
  · exact polygonGo_abort env symbol minDte maxDte today s₁ s₂ []

/-- Witness for the amended C6: the clean Tradier fetch succeeds, and a
Polygon stream failing after one good contract returns exactly the
rows of the prefix. -/
theorem adapter_fail_soft_witness :
    (∃ qs, tradierGetPutQuotes "XYZ" 0 100 0 tGoodFetch = .ok qs) ∧
    polygonGetPutQuotes pGoodEnv "XYZ" 0 100 0
        ([PEvent.contract pGoodContract] ++ PEvent.exc :: [PEvent.contract pGoodContract]) =
      polygonGetPutQuotes pGoodEnv "XYZ" 0 100 0 [PEvent.contract pGoodContract] :=
  ⟨(adapter_fail_soft "XYZ" 0 100 0 tGoodFetch pGoodEnv
      [PEvent.contract pGoodContract] [PEvent.contract pGoodContract]).1
    (by
      rintro exps hexp e he chain hch c hc
      obtain rfl := Except.ok.inj hexp
      simp only [List.mem_singleton] at he
      subst he
      obtain rfl := Except.ok.inj hch
      simp only [List.mem_singleton] at hc
      subst hc
      decide),
   (adapter_fail_soft "XYZ" 0 100 0 tGoodFetch pGoodEnv
      [PEvent.contract pGoodContract] [PEvent.contract pGoodContract]).2⟩

/-! ## Claim C7 — multi-source earnings calendar merge
(`fetch_calendar_range_multi`, src/app.py lines 905-930) -/

/-- One merged earnings-calendar row: symbol, date (a day number, stamped
by the per-day fetchers), session marker, source label. -/
structure CalRow where
  symbol : String
  date : ℤ
  session : String
  source : String
deriving DecidableEq

/-- The de-duplication key of `drop_duplicates(["symbol","date","session"])`. -/
def calKey (r : CalRow) : String × ℤ × String := (r.symbol, r.date, r.session)

/-- `drop_duplicates(keep="first")` on the key: scan left to right,
keep a row iff its key has not been seen. -/
def dropDupKeyAux (seen : List (String × ℤ × String)) : List CalRow → List CalRow
  | [] => []
  | r :: rest =>
    if calKey r ∈ seen then dropDupKeyAux seen rest
    else r :: dropDupKeyAux (calKey r :: seen) rest

/-- De-duplicate on (symbol, date, session), first occurrence wins. -/
def dropDupKey (l : List CalRow) : List CalRow := dropDupKeyAux [] l

/-- The sort key of `sort_values(["date","symbol"])` (both ascending). -/
def calLe (a b : CalRow) : Prop :=
  a.date < b.date ∨ (a.date = b.date ∧ a.symbol ≤ b.symbol)

instance : DecidableRel calLe := fun a b => by
  unfold calLe; infer_instance

instance calLe_total : IsTotal CalRow calLe where
  total a b := by
    rcases lt_trichotomy a.date b.date with h | h | h
    · exact Or.inl (Or.inl h)
    · rcases le_total a.symbol b.symbol with h' | h'
      · exact Or.inl (Or.inr ⟨h, h'⟩)
      · exact Or.inr (Or.inr ⟨h.symm, h'⟩)
    · exact Or.inr (Or.inl h)

instance calLe_trans : IsTrans CalRow calLe where
  trans a b c hab hbc := by
    rcases hab with h1 | ⟨h1, h1'⟩ <;> rcases hbc with h2 | ⟨h2, h2'⟩
    · exact Or.inl (h1.trans h2)
    · exact Or.inl (h2 ▸ h1)
    · exact Or.inl (h1 ▸ h2)
    · exact Or.inr ⟨h1.trans h2, h1'.trans h2'⟩

/-- `fetch_calendar_range_multi`: for each day of [start, end], collect
the four per-day source frames (Nasdaq, Yahoo, Benzinga,
EarningsWhispers, in that order; appending empty frames changes
nothing), concatenate, and — when anything was collected — de-duplicate
on (symbol, date, session) and sort by (date, symbol). -/
def fetchCalendarRangeMulti (start endd : ℤ)
    (nq yf bz ew : ℤ → List CalRow) : List CalRow :=
  let days := (List.range (endd - start + 1).toNat).map (fun i => start + i)
  let merged := days.flatMap (fun d => nq d ++ yf d ++ bz d ++ ew d)
  if merged.isEmpty then [] else List.insertionSort calLe (dropDupKey merged)

/-- The seen-set scan yields pairwise distinct keys, none of them
already seen. -/
theorem dropDupKeyAux_pairwise :
    ∀ (l : List CalRow) (seen : List (String × ℤ × String)),
    (dropDupKeyAux seen l).Pairwise (fun a b => calKey a ≠ calKey b) ∧
    ∀ x ∈ dropDupKeyAux seen l, calKey x ∉ seen := by
  intro l
  induction l with
  | nil => intro seen; exact ⟨List.Pairwise.nil, by simp [dropDupKeyAux]⟩
  | cons r rest ih =>
    intro seen
    by_cases h : calKey r ∈ seen
    · simp only [dropDupKeyAux, if_pos h]
      exact ih seen
    · simp only [dropDupKeyAux, if_neg h]
      obtain ⟨hp, hs⟩ := ih (calKey r :: seen)
      refine ⟨List.Pairwise.cons ?_ hp, ?_⟩
      · intro b hb heq
        exact hs b hb (List.mem_cons.mpr (Or.inl heq.symm))
      · intro x hx
        rcases List.mem_cons.mp hx with rfl | hx'
        · exact h
        · exact fun hxs => hs x hx' (List.mem_cons_of_mem _ hxs)

/-- The de-duplicated list has pairwise distinct keys. -/
theorem dropDupKey_pairwise (l : List CalRow) :
    (dropDupKey l).Pairwise (fun a b => calKey a ≠ calKey b) :=
  (dropDupKeyAux_pairwise l []).1

/-- C7: whatever rows the per-day calendar sources return, the merged
range query yields at most one row per (symbol, date, session) triple
(pairwise distinct keys) and is sorted ascending by (date, symbol). -/
theorem calendar_dedup_sorted (start endd : ℤ)
    (nq yf bz ew : ℤ → List CalRow) :
    (fetchCalendarRangeMulti start endd nq yf bz ew).Pairwise
      (fun a b => calKey a ≠ calKey b) ∧
    (fetchCalendarRangeMulti start endd nq yf bz ew).Sorted calLe := by
  have key : ∀ (merged : List CalRow),
      ((if merged.isEmpty then ([] : List CalRow)
        else List.insertionSort calLe (dropDupKey merged)).Pairwise
          (fun a b => calKey a ≠ calKey b)) ∧
      ((if merged.isEmpty then ([] : List CalRow)
        else List.insertionSort calLe (dropDupKey merged)).Sorted calLe) := by
    intro merged
    split
    · exact ⟨List.Pairwise.nil, List.sorted_nil⟩
    · exact ⟨((List.perm_insertionSort calLe _).pairwise_iff
          (fun h heq => h heq.symm)).2 (dropDupKey_pairwise merged),
        List.sorted_insertionSort calLe _⟩
  exact key _

end PutsTracker
